import Mathlib

/-!
Verification of the `discovery` package of docker-logger
(`app/discovery/events.go`), shallowly embedded in Lean 4.

The embedding mirrors the Go source:
* `contains`, `isAllowed`, `buildContainerName`, `buildGroupName`,
  `EventNotif.group` are direct translations of the pure Go functions;
* the two package-level regular expressions `reSwarm` (pattern
  `(?m)(.*)\.(\d+)\.(.*)`) and `reGroup` (pattern `/(.*?)/`) are embedded
  as explicit leftmost-first matchers over `List Char`, reproducing Go
  (RE2) submatch semantics for these two concrete patterns: search starts
  at the leftmost position, `.*` is greedy (longest first), `.*?` is lazy
  (shortest first), and `.` never matches a newline;
* the event loop of `activate` and the snapshot loop of
  `emitRunningContainers` become pure functions over lists of raw inputs;
  the channel becomes the list of emitted events in emission order;
* `NewEventNotif` becomes a function of the regexp compiler and of the
  container-listing result, returning an `Outcome` that distinguishes a
  returned error from the runtime panic of an out-of-range index.
-/

namespace DockerLogger

/-- Label maps (Go `map[string]string`), as association lists. -/
abbrev Labels := List (String × String)

/-- Lookup in a label map: `some v` when the key is present (Go `v, ok := m[k]`). -/
def lookupLabel : Labels → String → Option String
  | [], _ => none
  | (k, v) :: rest, key => if k = key then some v else lookupLabel rest key

/-- Go map indexing `m[k]` without the `ok` flag: missing keys yield the zero value `""`. -/
def getAttr (m : Labels) (k : String) : String :=
  (lookupLabel m k).getD ""

/-- Go `strings.TrimPrefix(s, "/")`: strips one leading slash if present. -/
def trimSlash (s : String) : String :=
  match s.toList with
  | '/' :: t => String.mk t
  | _ => s

/-- Go helper `contains(e, s)`: linear scan for string equality. -/
def contains (e : String) : List String → Bool
  | [] => false
  | a :: rest => if a = e then true else contains e rest

/-! ### The `reSwarm` regular expression `(?m)(.*)\.(\d+)\.(.*)`

`FindStringSubmatch` returns the three capture groups of the leftmost
match, with `(.*)` greedy and `.`/`\d` never matching `'\n'`.  The code
only uses the match when `len(r) == 4`, which holds for every match of
this three-group pattern, so the model returns the triple of groups. -/

/-- Splits off the maximal leading run of decimal digits (the greedy `\d+`). -/
def digitRun : List Char → List Char × List Char
  | [] => ([], [])
  | c :: t =>
    if c.isDigit then
      let (ds, r) := digitRun t
      (c :: ds, r)
    else ([], c :: t)

/-- Attempts to match `\.(\d+)\.(.*)` at the current point, with `acc` the
reversed text already consumed by the first group `(.*)`. -/
def checkHere (acc : List Char) : List Char → Option (List Char × List Char × List Char)
  | '.' :: rest =>
    match digitRun rest with
    | ([], _) => none
    | (ds, '.' :: tail) => some (acc.reverse, ds, tail.takeWhile (fun c => c ≠ '\n'))
    | (_, _) => none
  | _ => none

/-- Greedy search for the first group `(.*)` of `reSwarm`: longer captures are
tried before shorter ones, and the capture never crosses a newline. -/
def swarmTry (acc : List Char) : List Char → Option (List Char × List Char × List Char)
  | [] => checkHere acc []
  | c :: t =>
    if c = '\n' then checkHere acc (c :: t)
    else
      match swarmTry (c :: acc) t with
      | some r => some r
      | none => checkHere acc (c :: t)

/-- Leftmost-first submatch extraction for `reSwarm`: earlier start positions win. -/
def findSwarm : List Char → Option (List Char × List Char × List Char)
  | [] => none
  | c :: t =>
    match swarmTry [] (c :: t) with
    | some r => some r
    | none => findSwarm t

/-! ### The `reGroup` regular expression `/(.*?)/` -/

/-- Lazy search for the closing slash of `reGroup`: the shortest capture wins,
and the capture may not contain a newline (RE2 `.` excludes `'\n'`). -/
def groupAfterSlash : List Char → Option (List Char)
  | [] => none
  | c :: t =>
    if c = '/' then some []
    else if c = '\n' then none
    else (groupAfterSlash t).map (fun g => c :: g)

/-- Leftmost submatch extraction for `reGroup`: the first slash that is followed,
on the same line, by another slash captures the text between the two. -/
def findGroup : List Char → Option (List Char)
  | [] => none
  | c :: t =>
    if c = '/' then
      match groupAfterSlash t with
      | some g => some g
      | none => findGroup t
    else findGroup t

/-! ### Name and group resolution (`buildContainerName`, `buildGroupName`, `group`) -/

/-- Go `buildContainerName(labels, containerName)`: swarm names `service.N.taskid`
become `service-N`; otherwise a non-empty `logger.container.name` label wins;
otherwise the raw name is returned unchanged. -/
def buildContainerName (labels : Labels) (containerName : String) : String :=
  let result : List String :=
    match findSwarm containerName.toList with
    | some (svc, rep, _) => [String.mk svc, String.mk rep]
    | none =>
      match lookupLabel labels "logger.container.name" with
      | some labelName => if labelName ≠ "" then [labelName] else []
      | none => []
  if result.length > 0 then String.intercalate "-" result
  else containerName

/-- Go `buildGroupName(labels, defaultValue)`: a non-empty `logger.group.name`
label overrides the supplied default. -/
def buildGroupName (labels : Labels) (defaultValue : String) : String :=
  match lookupLabel labels "logger.group.name" with
  | some labelGroup => if labelGroup ≠ "" then labelGroup else defaultValue
  | none => defaultValue

/-- Go method `(e *EventNotif) group(image)`: the text between the first two
slashes of the image reference, or `""` when `reGroup` does not match. -/
def group (image : String) : String :=
  match findGroup image.toList with
  | some g => String.mk g
  | none => ""

/-! ### Policy (`EventNotif` fields and `isAllowed`) -/

/-- Configuration part of the Go `EventNotif` struct.  A compiled
`*regexp.Regexp` is embedded as its `MatchString` function; a `nil`
pointer is `none`. -/
structure EventNotif where
  excludes : List String
  includes : List String
  includesRegexp : Option (String → Bool)
  excludesRegexp : Option (String → Bool)

/-- Go method `(e *EventNotif) isAllowed(containerName)`, translated branch for branch. -/
def isAllowed (e : EventNotif) (containerName : String) : Bool :=
  match e.includesRegexp with
  | some re => re containerName
  | none =>
    match e.excludesRegexp with
    | some re => !(re containerName)
    | none =>
      if e.includes.length > 0 then contains containerName e.includes
      else if contains containerName e.excludes then false
      else true

/-- The five-step decision ladder exactly as the specification words it:
include pattern, else exclude pattern (negated), else non-empty include
list membership, else exclude list rejection, else default allow. -/
def isAllowedSpec (e : EventNotif) (name : String) : Bool :=
  match e.includesRegexp with
  | some re => re name
  | none =>
    match e.excludesRegexp with
    | some re => !(re name)
    | none =>
      if e.includes ≠ [] then decide (name ∈ e.includes)
      else if name ∈ e.excludes then false
      else true

/-- Name resolution as the specification words it: swarm pattern first
(regardless of labels), then a non-empty `logger.container.name` label,
then the raw name unchanged. -/
def resolveNameSpec (labels : Labels) (rawName : String) : String :=
  match findSwarm rawName.toList with
  | some (svc, rep, _) => String.mk svc ++ "-" ++ String.mk rep
  | none =>
    match lookupLabel labels "logger.container.name" with
    | some v => if v ≠ "" then v else rawName
    | none => rawName

/-- Group resolution as the specification words it: a non-empty
`logger.group.name` label wins, otherwise the default derived from the
image reference. -/
def resolveGroupSpec (labels : Labels) (image : String) : String :=
  match lookupLabel labels "logger.group.name" with
  | some v => if v ≠ "" then v else group image
  | none => group image

/-! ### Events -/

/-- The outbound `Event` struct.  `TS = time.Unix(TSsec, TSnsec)` is kept as
the pair of integer arguments the Go code passes to `time.Unix`. -/
structure Event where
  ContainerID : String
  ContainerName : String
  Group : String
  TSsec : Int
  TSnsec : Int
  Status : Bool
deriving DecidableEq, Repr

/-- The fields of `docker.APIEvents` read by `activate`: `Type`, `Status`,
`Actor.ID`, `Actor.Attributes`, `From`, `Time`, `TimeNano`. -/
structure APIEvent where
  typ : String
  status : String
  actorID : String
  attributes : Labels
  fromImage : String
  time : Int
  timeNano : Int
deriving DecidableEq, Repr

/-- The fields of `docker.APIContainers` read by `emitRunningContainers`:
`ID`, `Names`, `Labels`, `Image`, `Created`. -/
structure APIContainer where
  id : String
  names : List String
  labels : Labels
  image : String
  created : Int
deriving DecidableEq, Repr

/-- Go `upStatuses` in `activate`. -/
def upStatuses : List String := ["start", "restart"]

/-- Go `downStatuses` in `activate`. -/
def downStatuses : List String := ["die", "destroy", "stop", "pause"]

/-- Body of the `for dockerEvent := range dockerEventsCh` loop of `activate`
for one raw event: `none` when the event is filtered out, `some ev` when
`ev` is sent to `eventsCh`. -/
def processEvent (e : EventNotif) (ev : APIEvent) : Option Event :=
  if ev.typ ≠ "container" then none
  else if !(contains ev.status upStatuses) && !(contains ev.status downStatuses) then none
  else
    let containerName := buildContainerName ev.attributes (trimSlash (getAttr ev.attributes "name"))
    let groupName := buildGroupName ev.attributes (group ev.fromImage)
    if !(isAllowed e containerName) then none
    else some
      { ContainerID := ev.actorID
        ContainerName := containerName
        Status := contains ev.status upStatuses
        TSsec := ev.time.tdiv 1000
        TSnsec := ev.timeNano
        Group := groupName }

/-- The sequence of events `activate` sends to `eventsCh` for a given
sequence of raw events read from the listener channel, in send order. -/
def activateTrace (e : EventNotif) : List APIEvent → List Event
  | [] => []
  | ev :: rest =>
    match processEvent e ev with
    | some out => out :: activateTrace e rest
    | none => activateTrace e rest

/-- Body of the `for _, c := range containers` loop of `emitRunningContainers`
for one container, assuming `c.Names` is non-empty: `none` when the container
is excluded by policy, `some ev` when `ev` is sent to `eventsCh`. -/
def processContainer (e : EventNotif) (c : APIContainer) : Option Event :=
  match c.names.head? with
  | none => none
  | some n0 =>
    let containerName := buildContainerName c.labels (trimSlash n0)
    let groupName := buildGroupName c.labels (group c.image)
    if !(isAllowed e containerName) then none
    else some
      { Status := true
        ContainerName := containerName
        ContainerID := c.id
        TSsec := c.created.tdiv 1000
        TSnsec := 0
        Group := groupName }

/-- The emission loop of `emitRunningContainers` over a successful listing:
`some evs` is the list of events sent to `eventsCh` in listing order;
`none` models the Go runtime panic of `c.Names[0]` on an empty `Names`. -/
def emitRun (e : EventNotif) : List APIContainer → Option (List Event)
  | [] => some []
  | c :: rest =>
    match c.names.head? with
    | none => none
    | some n0 =>
      let containerName := buildContainerName c.labels (trimSlash n0)
      let groupName := buildGroupName c.labels (group c.image)
      if !(isAllowed e containerName) then emitRun e rest
      else
        match emitRun e rest with
        | none => none
        | some evs => some
            ({ Status := true
               ContainerName := containerName
               ContainerID := c.id
               TSsec := c.created.tdiv 1000
               TSnsec := 0
               Group := groupName } :: evs)

/-! ### Construction (`NewEventNotif`) -/

/-- Result of running `NewEventNotif`: a returned error (`err`, the Go
`return nil, err` paths), a runtime panic (`panic`, the out-of-range index
in `emitRunningContainers`), or a constructed notifier. -/
inductive Outcome (α : Type) where
  | ok : α → Outcome α
  | err : String → Outcome α
  | panic : Outcome α
deriving Repr

/-- What a successful `NewEventNotif` produces: the configured notifier, the
snapshot events already written to `eventsCh`, and the fact that the
background listener goroutine has been started (`go func { res.activate … }`). -/
structure Construction where
  notif : EventNotif
  snapshot : List Event
  listenerStarted : Bool

/-- Go `NewEventNotif(dockerClient, excludes, includes, includesPattern,
excludesPattern)`.  The external `regexp.Compile` is a parameter `compile`;
the external `dockerClient.ListContainers(ListContainersOptions{All: false})`
call is a parameter `listing` holding its result.  Error strings follow
`errors.Wrap`, which renders as `"context: cause"`. -/
def NewEventNotif (compile : String → Except String (String → Bool))
    (listing : Except String (List APIContainer))
    (excludes includes : List String)
    (includesPattern excludesPattern : String) : Outcome Construction :=
  let step1 : Except String (Option (String → Bool)) :=
    if includesPattern ≠ "" then
      match compile includesPattern with
      | .ok re => .ok (some re)
      | .error e => .error ("failed to compile includesPattern: " ++ e)
    else .ok none
  match step1 with
  | .error e => .err e
  | .ok includesRe =>
    let step2 : Except String (Option (String → Bool)) :=
      if excludesPattern ≠ "" then
        match compile excludesPattern with
        | .ok re => .ok (some re)
        | .error e => .error ("failed to compile excludesPattern: " ++ e)
      else .ok none
    match step2 with
    | .error e => .err e
    | .ok excludesRe =>
      let res : EventNotif :=
        { excludes := excludes
          includes := includes
          includesRegexp := includesRe
          excludesRegexp := excludesRe }
      match listing with
      | .error e => .err ("failed to emit containers: " ++ ("can't list containers: " ++ e))
      | .ok containers =>
        match emitRun res containers with
        | none => .panic
        | some evs => .ok { notif := res, snapshot := evs, listenerStarted := true }

/-- The full contents of `eventsCh`, in write order, for one run of the
notifier: construction (snapshot phase) first, then the live listener
processing `rawEvents`.  The listener is started only on the success path
of `NewEventNotif`, after `emitRunningContainers` has returned. -/
def runChannel (compile : String → Except String (String → Bool))
    (listing : Except String (List APIContainer))
    (excludes includes : List String)
    (includesPattern excludesPattern : String)
    (rawEvents : List APIEvent) : Outcome (List Event) :=
  match NewEventNotif compile listing excludes includes includesPattern excludesPattern with
  | .ok c => .ok (c.snapshot ++ activateTrace c.notif rawEvents)
  | .err e => .err e
  | .panic => .panic

/-- A regexp compiler for witnesses: rejects `"("` as Go `regexp.Compile`
does, accepts everything else with a matcher. -/
def failParen : String → Except String (String → Bool) :=
  fun s => if s = "(" then .error "missing closing )" else .ok (fun n => n == "api")

/-! ### Helper lemmas -/

/-- The Go linear scan `contains` decides list membership. -/
theorem contains_eq_mem (a : String) (l : List String) : contains a l = decide (a ∈ l) := by
  induction l with
  | nil => simp [contains]
  | cons b t ih =>
    by_cases h : b = a
    · simp [contains, h]
    · simp [contains, h, ih, Ne.symm h]

/-- A capture of the lazy group of `reGroup` implies a slash in the scanned text. -/
theorem groupAfterSlash_mem {l : List Char} {g : List Char}
    (h : groupAfterSlash l = some g) : '/' ∈ l := by
  induction l generalizing g with
  | nil => simp [groupAfterSlash] at h
  | cons c t ih =>
    by_cases hc : c = '/'
    · simp [hc]
    · by_cases hn : c = '\n'
      · simp [groupAfterSlash, hc, hn] at h
      · simp only [groupAfterSlash, if_neg hc, if_neg hn, Option.map_eq_some'] at h
        obtain ⟨g', hg', _⟩ := h
        exact List.mem_cons_of_mem _ (ih hg')

/-- A match of `reGroup` needs at least two slashes in the text. -/
theorem findGroup_two_slashes {l : List Char} {g : List Char}
    (h : findGroup l = some g) : 2 ≤ l.count '/' := by
  induction l generalizing g with
  | nil => simp [findGroup] at h
  | cons c t ih =>
    by_cases hc : c = '/'
    · subst hc
      simp only [findGroup, if_pos rfl] at h
      have hcnt : List.count '/' ('/' :: t) = List.count '/' t + 1 := by
        simp [List.count_cons]
      cases hga : groupAfterSlash t with
      | some g' =>
        have hmem : '/' ∈ t := groupAfterSlash_mem hga
        have hpos : 0 < t.count '/' := List.count_pos_iff.mpr hmem
        omega
      | none =>
        rw [hga] at h
        have := ih h
        omega
    · simp only [findGroup, if_neg hc] at h
      have := ih h
      have hcnt : List.count '/' (c :: t) = List.count '/' t := by
        simp [List.count_cons, hc]
      omega

/-- The lazy group of `reGroup` captures exactly the slash-free, newline-free
text standing before the next slash. -/
theorem groupAfterSlash_clean {g : List Char} (rest : List Char)
    (hslash : '/' ∉ g) (hnl : '\n' ∉ g) :
    groupAfterSlash (g ++ '/' :: rest) = some g := by
  induction g with
  | nil => simp [groupAfterSlash]
  | cons c t ih =>
    have hc : c ≠ '/' := fun h => hslash (h ▸ List.mem_cons_self c t)
    have hn : c ≠ '\n' := fun h => hnl (h ▸ List.mem_cons_self c t)
    have ht : groupAfterSlash (t ++ '/' :: rest) = some t :=
      ih (fun h => hslash (List.mem_cons_of_mem c h)) (fun h => hnl (List.mem_cons_of_mem c h))
    simp [groupAfterSlash, hc, hn, ht]

/-- `reGroup` search skips a slash-free prefix and fires at the first slash. -/
theorem findGroup_prefix {r t : List Char} {g : List Char}
    (hr : '/' ∉ r) (ht : groupAfterSlash t = some g) :
    findGroup (r ++ '/' :: t) = some g := by
  induction r with
  | nil => simp [findGroup, ht]
  | cons c r' ih =>
    have hc : c ≠ '/' := fun h => hr (h ▸ List.mem_cons_self c r')
    have := ih (fun h => hr (List.mem_cons_of_mem c h))
    simp [findGroup, hc, this]

/-- The events of `activate` are the raw events, filtered and mapped in order. -/
theorem activateTrace_eq_filterMap (e : EventNotif) (l : List APIEvent) :
    activateTrace e l = l.filterMap (processEvent e) := by
  induction l with
  | nil => rfl
  | cons ev rest ih =>
    cases h : processEvent e ev with
    | some out => simp [activateTrace, h, ih, List.filterMap_cons]
    | none => simp [activateTrace, h, ih, List.filterMap_cons]

/-- A successful snapshot run emits exactly the per-container events, in
listing order. -/
theorem emitRun_eq_filterMap (e : EventNotif) :
    ∀ cs evs, emitRun e cs = some evs → evs = cs.filterMap (processContainer e) := by
  intro cs
  induction cs with
  | nil =>
    intro evs h
    simp only [emitRun, Option.some.injEq] at h
    simp [← h]
  | cons c rest ih =>
    intro evs h
    cases hn : c.names.head? with
    | none => simp [emitRun, hn] at h
    | some n0 =>
      simp only [emitRun, hn] at h
      by_cases ha : isAllowed e (buildContainerName c.labels (trimSlash n0)) = true
      · simp only [ha, Bool.not_true, Bool.false_eq_true, if_false] at h
        cases hrest : emitRun e rest with
        | none => rw [hrest] at h; simp at h
        | some evs' =>
          rw [hrest] at h
          simp only [Option.some.injEq] at h
          simp [List.filterMap_cons, processContainer, hn, ha, ← h, ih evs' hrest]
      · rw [Bool.not_eq_true] at ha
        simp only [ha, Bool.not_false, if_true] at h
        simp [List.filterMap_cons, processContainer, hn, ha, ih evs h]

/-! ### Claims -/

/-- C1: `isAllowed` follows the five-step first-match-wins ladder stated by
the specification (include pattern, else exclude pattern negated, else
non-empty include list membership, else exclude list rejection, else
default allow), here `isAllowedSpec`; and in particular a notifier with an
include pattern matching `"web"` and an exclude list containing `"web"`
still allows `"web"`. -/
theorem isAllowed_follows_spec_ladder :
    (∀ e name, isAllowed e name = isAllowedSpec e name) ∧
    isAllowed ⟨["web"], [], some (fun n => n == "web"), none⟩ "web" = true := by
  constructor
  · intro e name
    obtain ⟨exc, inc, incRe, excRe⟩ := e
    cases incRe with
    | some re => rfl
    | none =>
      cases excRe with
      | some re => rfl
      | none =>
        cases inc with
        | nil => simp [isAllowed, isAllowedSpec, contains_eq_mem]
        | cons a t => simp [isAllowed, isAllowedSpec, contains_eq_mem]
  · rfl

/-- C2: name resolution follows the spec precedence — swarm pattern first
(regardless of labels, yielding `service ++ "-" ++ replica`), then a
non-empty `logger.container.name` label, then the raw name unchanged
(`resolveNameSpec`); in particular every label map resolves the raw name
`"service.3.abcdef"` to `"service-3"`. -/
theorem buildContainerName_follows_spec :
    (∀ labels rawName, buildContainerName labels rawName = resolveNameSpec labels rawName) ∧
    (∀ labels, buildContainerName labels "service.3.abcdef" = "service-3") := by
  constructor
  · intro labels rawName
    unfold buildContainerName resolveNameSpec
    cases findSwarm rawName.toList with
    | some r => rfl
    | none =>
      cases lookupLabel labels "logger.container.name" with
      | some v =>
        by_cases hv : v = ""
        · simp [hv]
        · simp only [hv, ne_eq, not_false_eq_true, if_true, List.length_cons,
            List.length_nil, gt_iff_lt, Nat.zero_lt_one, if_pos]
          rfl
      | none => rfl
  · intro labels
    rfl

/-- C3: group resolution returns a non-empty `logger.group.name` label, and
otherwise the default derived from the image (`resolveGroupSpec`); the
default for an image `r/g/rest` (first two slash-delimited segments) is
`g`, and an image with at most one slash has default group `""`;
concretely `"registry/group/image:tag"` yields `"group"`. -/
theorem group_resolution_follows_spec :
    (∀ labels image, buildGroupName labels (group image) = resolveGroupSpec labels image) ∧
    (∀ r g rest : List Char, '/' ∉ r → '/' ∉ g → '\n' ∉ g →
      group (String.mk (r ++ '/' :: (g ++ '/' :: rest))) = String.mk g) ∧
    (∀ image : String, image.toList.count '/' ≤ 1 → group image = "") ∧
    group "registry/group/image:tag" = "group" := by
  refine ⟨?_, ?_, ?_, rfl⟩
  · intro labels image
    unfold buildGroupName resolveGroupSpec
    cases lookupLabel labels "logger.group.name" with
    | some v => rfl
    | none => rfl
  · intro r g rest hr hg hn
    have h1 : groupAfterSlash (g ++ '/' :: rest) = some g := groupAfterSlash_clean rest hg hn
    have h2 : findGroup (r ++ '/' :: (g ++ '/' :: rest)) = some g := findGroup_prefix hr h1
    show (match findGroup (String.mk (r ++ '/' :: (g ++ '/' :: rest))).toList with
      | some g => String.mk g
      | none => "") = String.mk g
    rw [show (String.mk (r ++ '/' :: (g ++ '/' :: rest))).toList
          = r ++ '/' :: (g ++ '/' :: rest) from rfl, h2]
  · intro image hle
    cases hf : findGroup image.toList with
    | some g =>
      have := findGroup_two_slashes hf
      omega
    | none =>
      simp only [group]
      rw [hf]

/-- C3 witness: the general conjuncts applied at `"registry"`, `"group"`,
`"image:tag"` and at the one-slash image `"group/worker:v1"`. -/
theorem group_resolution_follows_spec_witness :
    group (String.mk ("registry".toList ++ '/' :: ("group".toList ++ '/' :: "image:tag".toList)))
        = String.mk "group".toList ∧
    group "group/worker:v1" = "" :=
  ⟨group_resolution_follows_spec.2.1 "registry".toList "group".toList "image:tag".toList
      (by decide) (by decide) (by decide),
    group_resolution_follows_spec.2.2.1 "group/worker:v1" (by decide)⟩

/-- C4: per raw event, `activate` emits nothing when the object type is not
"container", nothing when the status text is outside the recognized
up-transitions and down-transitions, and otherwise, when the resolved name
passes policy, emits exactly one event whose boolean status is true iff
the status text is an up-transition; in particular an event of type
"network" never yields output. -/
theorem activate_event_filtering :
    (∀ e ev, ev.typ ≠ "container" → processEvent e ev = none) ∧
    (∀ e ev, ev.status ∉ upStatuses ++ downStatuses → processEvent e ev = none) ∧
    (∀ e ev, ev.typ = "container" → ev.status ∈ upStatuses ++ downStatuses →
      isAllowed e (buildContainerName ev.attributes (trimSlash (getAttr ev.attributes "name"))) = true →
      ∃ out, processEvent e ev = some out ∧ out.Status = decide (ev.status ∈ upStatuses)) ∧
    (∀ e ev, ev.typ = "network" → processEvent e ev = none) := by
  have hnotc : ∀ e ev, ev.typ ≠ "container" → processEvent e ev = none := by
    intro e ev h
    simp [processEvent, h]
  refine ⟨hnotc, ?_, ?_, ?_⟩
  · intro e ev h
    by_cases ht : ev.typ = "container"
    · have h1 : ev.status ∉ upStatuses := fun hm => h (List.mem_append_left _ hm)
      have h2 : ev.status ∉ downStatuses := fun hm => h (List.mem_append_right _ hm)
      simp [processEvent, ht, contains_eq_mem, h1, h2]
    · exact hnotc e ev ht
  · intro e ev ht hs ha
    have h1 : (!(contains ev.status upStatuses) && !(contains ev.status downStatuses)) = false := by
      rcases List.mem_append.mp hs with h | h <;> simp [contains_eq_mem, h]
    have h2 : processEvent e ev = some
        { ContainerID := ev.actorID
          ContainerName := buildContainerName ev.attributes (trimSlash (getAttr ev.attributes "name"))
          Status := contains ev.status upStatuses
          TSsec := ev.time.tdiv 1000
          TSnsec := ev.timeNano
          Group := buildGroupName ev.attributes (group ev.fromImage) } := by
      simp [processEvent, ht, h1, ha]
    exact ⟨_, h2, contains_eq_mem ev.status upStatuses⟩
  · intro e ev h
    exact hnotc e ev (by simp [h])

/-- C4 witness: the filtering conjuncts applied to a permissive notifier at a
"network" event, at an unrecognized status "create", and at a passing
"stop" event. -/
theorem activate_event_filtering_witness :
    processEvent ⟨[], [], none, none⟩ ⟨"network", "start", "i1", [], "a/b/c", 0, 0⟩ = none ∧
    processEvent ⟨[], [], none, none⟩ ⟨"container", "create", "i2", [], "a/b/c", 0, 0⟩ = none ∧
    (∃ out, processEvent ⟨[], [], none, none⟩
        ⟨"container", "stop", "i3", [("name", "/worker")], "a/b/c", 5000, 7⟩ = some out ∧
      out.Status = decide ("stop" ∈ upStatuses)) :=
  ⟨activate_event_filtering.2.2.2 _ _ rfl,
    activate_event_filtering.2.1 _ _ (by decide),
    activate_event_filtering.2.2.1 _ _ rfl (by decide) (by decide)⟩

/-- C5 counterexample: for the scenario raw event (type "container", status
"stop", actor name "/worker", image "group/worker:v1") with no policy
restrictions, the emitted group is not "group": the image holds only one
slash, so `reGroup` does not match and the default group is empty. -/
theorem scenario_stop_worker_wrong_group :
    (processEvent ⟨[], [], none, none⟩
        ⟨"container", "stop", "cid", [("name", "/worker")], "group/worker:v1", 0, 0⟩).map Event.Group
      ≠ some "group" := by decide

/-- C5 amended: the listener emits the scenario event with ContainerName
"worker" and Status false, but with Group "" rather than "group". -/
theorem scenario_stop_worker_event :
    processEvent ⟨[], [], none, none⟩
        ⟨"container", "stop", "cid", [("name", "/worker")], "group/worker:v1", 0, 0⟩ =
      some { ContainerID := "cid", ContainerName := "worker", Group := "",
             TSsec := 0, TSnsec := 0, Status := false } := by decide

/-- C6: the snapshot phase emits one status-true event per allowed container,
but its timestamp seconds are `Created/1000`, not the `createdAt`
epoch-seconds the collaborator contract declares: a container created at
epoch second 1000 is emitted with timestamp second 1. -/
theorem snapshot_timestamp_divides_created :
    emitRun ⟨[], [], none, none⟩ [⟨"id1", ["/web"], [], "r/g/i:t", 1000⟩] =
      some [{ ContainerID := "id1", ContainerName := "web", Group := "g",
              TSsec := 1, TSnsec := 0, Status := true }] ∧
    (emitRun ⟨[], [], none, none⟩ [⟨"id1", ["/web"], [], "r/g/i:t", 1000⟩]).map
        (fun evs => evs.map Event.TSsec) ≠ some [1000] := by decide

/-- C7: a non-empty include or exclude pattern that fails to compile makes
construction return the ConfigError wrap, for every listing result alike
(so before and independently of any container listing); empty pattern
strings never consult the compiler, cause no error, and leave both
compiled patterns disabled. -/
theorem newEventNotif_config_error :
    (∀ compile listing exc inc ip ep msg, ip ≠ "" → compile ip = .error msg →
      NewEventNotif compile listing exc inc ip ep =
        .err ("failed to compile includesPattern: " ++ msg)) ∧
    (∀ compile listing exc inc ip ep msg, (ip = "" ∨ ∃ re, compile ip = .ok re) →
      ep ≠ "" → compile ep = .error msg →
      NewEventNotif compile listing exc inc ip ep =
        .err ("failed to compile excludesPattern: " ++ msg)) ∧
    (∀ compile compile2 listing exc inc,
      NewEventNotif compile listing exc inc "" "" = NewEventNotif compile2 listing exc inc "" "") ∧
    (∀ compile listing exc inc c, NewEventNotif compile listing exc inc "" "" = .ok c →
      c.notif.includesRegexp = none ∧ c.notif.excludesRegexp = none) := by
  refine ⟨?_, ?_, ?_, ?_⟩
  · intro compile listing exc inc ip ep msg hip hc
    simp [NewEventNotif, hip, hc]
  · intro compile listing exc inc ip ep msg hip hep hc
    by_cases h1 : ip = ""
    · simp [NewEventNotif, h1, hep, hc]
    · rcases hip with h | ⟨re1, hre1⟩
      · exact absurd h h1
      · simp [NewEventNotif, h1, hre1, hep, hc]
  · intro compile compile2 listing exc inc
    rfl
  · intro compile listing exc inc c h
    cases listing with
    | error e => simp [NewEventNotif] at h
    | ok cs =>
      simp only [NewEventNotif, ne_eq, not_true_eq_false, if_false, reduceCtorEq] at h
      cases hemit : emitRun ⟨exc, inc, none, none⟩ cs with
      | none => rw [hemit] at h; simp at h
      | some evs =>
        rw [hemit] at h
        cases h
        exact ⟨rfl, rfl⟩

/-- C7 witness: `includesPattern: "("` aborts with the ConfigError wrap for a
listing that was never consulted, an invalid exclude pattern aborts
likewise, and empty patterns construct a notifier with both compiled
patterns disabled. -/
theorem newEventNotif_config_error_witness :
    NewEventNotif failParen (.ok []) [] [] "(" "" =
        .err ("failed to compile includesPattern: " ++ "missing closing )") ∧
    NewEventNotif failParen (.ok []) [] [] "" "(" =
        .err ("failed to compile excludesPattern: " ++ "missing closing )") ∧
    NewEventNotif failParen (.ok []) [] [] "" "" =
      NewEventNotif (fun _ => .error "never used") (.ok []) [] [] "" "" ∧
    { notif := ⟨[], [], none, none⟩, snapshot := ([] : List Event),
        listenerStarted := true : Construction }.notif.includesRegexp = none ∧
    { notif := ⟨[], [], none, none⟩, snapshot := ([] : List Event),
        listenerStarted := true : Construction }.notif.excludesRegexp = none :=
  ⟨newEventNotif_config_error.1 failParen (.ok []) [] [] "(" "" _ (by decide) rfl,
    newEventNotif_config_error.2.1 failParen (.ok []) [] [] "" "(" _ (Or.inl rfl) (by decide) rfl,
    newEventNotif_config_error.2.2.1 failParen _ (.ok []) [] [],
    newEventNotif_config_error.2.2.2 failParen (.ok []) [] [] _ rfl⟩

/-- C8: when the initial container listing fails (and the patterns are
empty or compile), construction surfaces the wrapped CollectorError and
returns no notifier: the outcome is an error, never an `ok` carrying a
notifier with its started listener. -/
theorem newEventNotif_listing_failure :
    ∀ compile exc inc ip ep msg,
      (ip = "" ∨ ∃ re, compile ip = Except.ok re) →
      (ep = "" ∨ ∃ re, compile ep = Except.ok re) →
      NewEventNotif compile (.error msg) exc inc ip ep =
          .err ("failed to emit containers: " ++ ("can't list containers: " ++ msg)) ∧
        ∀ c, NewEventNotif compile (.error msg) exc inc ip ep ≠ .ok c := by
  intro compile exc inc ip ep msg hip hep
  have hmain : NewEventNotif compile (.error msg) exc inc ip ep =
      .err ("failed to emit containers: " ++ ("can't list containers: " ++ msg)) := by
    by_cases h1 : ip = ""
    · by_cases h2 : ep = ""
      · simp [NewEventNotif, h1, h2]
      · rcases hep with h | ⟨re2, hre2⟩
        · exact absurd h h2
        · simp [NewEventNotif, h1, h2, hre2]
    · rcases hip with h | ⟨re1, hre1⟩
      · exact absurd h h1
      · by_cases h2 : ep = ""
        · simp [NewEventNotif, h1, h2, hre1]
        · rcases hep with h | ⟨re2, hre2⟩
          · exact absurd h h2
          · simp [NewEventNotif, h1, h2, hre1, hre2]
  refine ⟨hmain, fun c hc => ?_⟩
  rw [hmain] at hc
  exact absurd hc (by simp)

/-- C8 witness: a failed listing with empty patterns yields exactly the
wrapped CollectorError. -/
theorem newEventNotif_listing_failure_witness :
    NewEventNotif failParen (.error "conn refused") ["a"] [] "" "" =
      .err ("failed to emit containers: " ++ ("can't list containers: " ++ "conn refused")) :=
  (newEventNotif_listing_failure failParen ["a"] [] "" "" "conn refused"
    (Or.inl rfl) (Or.inl rfl)).1

/-- C9: in every run that constructs a notifier, the channel contents are
the snapshot events followed by the live-listener events: the listener is
started only after `emitRunningContainers` has returned, the snapshot
events are the listed containers filtered and mapped in listing order, and
the live events are the raw events filtered and mapped in arrival order
(FIFO, no reordering). -/
theorem channel_snapshot_before_live :
    ∀ compile listing exc inc ip ep rawEvents c,
      NewEventNotif compile listing exc inc ip ep = .ok c →
      runChannel compile listing exc inc ip ep rawEvents =
          .ok (c.snapshot ++ activateTrace c.notif rawEvents) ∧
        (∀ containers, listing = .ok containers →
          c.snapshot = containers.filterMap (processContainer c.notif)) ∧
        activateTrace c.notif rawEvents = rawEvents.filterMap (processEvent c.notif) := by
  intro compile listing exc inc ip ep rawEvents c h
  refine ⟨?_, ?_, activateTrace_eq_filterMap _ _⟩
  · unfold runChannel
    rw [h]
  · intro containers hl
    subst hl
    simp only [NewEventNotif] at h
    split at h
    · simp at h
    · split at h
      · simp at h
      · split at h
        · simp at h
        · rename_i evs hemit
          cases h
          exact emitRun_eq_filterMap _ containers evs hemit

/-- C9 witness: one running swarm container and one live start event; the
channel holds the snapshot event first, then the live event. -/
theorem channel_snapshot_before_live_witness :
    runChannel failParen
        (.ok [⟨"id1", ["/web.2.xyz"], [], "myorg/api:latest", 1000⟩]) [] [] "" ""
        [⟨"container", "start", "id2", [("name", "/api")], "a/b/c:1", 2000, 3⟩] =
        .ok ((⟨⟨[], [], none, none⟩, [⟨"id1", "web-2", "", 1, 0, true⟩], true⟩ :
            Construction).snapshot ++
          activateTrace (⟨⟨[], [], none, none⟩, [⟨"id1", "web-2", "", 1, 0, true⟩], true⟩ :
            Construction).notif
            [⟨"container", "start", "id2", [("name", "/api")], "a/b/c:1", 2000, 3⟩]) ∧
      (⟨⟨[], [], none, none⟩, [⟨"id1", "web-2", "", 1, 0, true⟩], true⟩ :
          Construction).snapshot =
        [⟨"id1", ["/web.2.xyz"], [], "myorg/api:latest", 1000⟩].filterMap
          (processContainer (⟨[], [], none, none⟩ : EventNotif)) ∧
      activateTrace (⟨[], [], none, none⟩ : EventNotif)
          [⟨"container", "start", "id2", [("name", "/api")], "a/b/c:1", 2000, 3⟩] =
        [⟨"container", "start", "id2", [("name", "/api")], "a/b/c:1", 2000, 3⟩].filterMap
          (processEvent (⟨[], [], none, none⟩ : EventNotif)) := by
  have h := channel_snapshot_before_live failParen
    (.ok [⟨"id1", ["/web.2.xyz"], [], "myorg/api:latest", 1000⟩]) [] [] "" ""
    [⟨"container", "start", "id2", [("name", "/api")], "a/b/c:1", 2000, 3⟩]
    (⟨⟨[], [], none, none⟩, [⟨"id1", "web-2", "", 1, 0, true⟩], true⟩ : Construction) rfl
  exact ⟨h.1, h.2.1 [⟨"id1", ["/web.2.xyz"], [], "myorg/api:latest", 1000⟩] rfl, h.2.2⟩

/-- C10: the snapshot loop reads `c.Names[0]` without a length check: it is
total when every listed container has a non-empty Names sequence, and the
out-of-range branch is reachable — a listing holding a container with
empty Names makes the emission run abort with `none`. -/
theorem emitRunning_names_partiality :
    (∀ e cs, (∀ c ∈ cs, c.names ≠ []) → ∃ evs, emitRun e cs = some evs) ∧
    emitRun ⟨[], [], none, none⟩ [⟨"id0", [], [], "img", 0⟩] = none := by
  constructor
  · intro e cs
    induction cs with
    | nil => exact fun _ => ⟨[], rfl⟩
    | cons c rest ih =>
      intro hns
      have hc : c.names ≠ [] := hns c (List.mem_cons_self c rest)
      obtain ⟨evs, hevs⟩ := ih (fun x hx => hns x (List.mem_cons_of_mem c hx))
      cases hhd : c.names.head? with
      | none => exact absurd (List.head?_eq_none_iff.mp hhd) hc
      | some n0 =>
        by_cases ha : isAllowed e (buildContainerName c.labels (trimSlash n0)) = true
        · refine ⟨({ ContainerID := c.id
                     ContainerName := buildContainerName c.labels (trimSlash n0)
                     Group := buildGroupName c.labels (group c.image)
                     TSsec := c.created.tdiv 1000
                     TSnsec := 0
                     Status := true } : Event) :: evs, ?_⟩
          simp [emitRun, hhd, ha, hevs]
        · rw [Bool.not_eq_true] at ha
          exact ⟨evs, by simp [emitRun, hhd, ha, hevs]⟩
  · decide

/-- C10 witness: a one-container listing with a non-empty Names sequence
emits successfully. -/
theorem emitRunning_names_partiality_witness :
    ∃ evs, emitRun ⟨[], [], none, none⟩ [⟨"id9", ["/api"], [], "x/y/z", 42⟩] = some evs :=
  emitRunning_names_partiality.1 ⟨[], [], none, none⟩
    [⟨"id9", ["/api"], [], "x/y/z", 42⟩] (by decide)

end DockerLogger
